import Mathlib

/-!
Verification development for the recruitment-portal backend
(`Backend/app`), centred on the interview scheduling and slot-selection
workflow (`interview_api.py`, `calendar_utils.py`, `notification_utils.py`,
`email_utils.py`).

The Python code is shallowly embedded: the database session is an explicit
record of entity lists, each HTTP endpoint becomes a pure function from the
caller (the `User` row resolved from the bearer token), the request
parameters and the database state to a result / new state / list of email
recipients.  External collaborators (AWS SES / S3) are represented by a
boolean `email_ok` flag: when it is `false` the first outbound
email/attachment call raises, exactly as an unguarded `boto3` call would.

The SQLAlchemy model declarations (`models.py`) and the request schema
(`schemas.py`) are not part of the sources at hand; their field lists and
defaults (e.g. `InterviewSlot.is_selected` defaulting to false, slot rows
being deleted when `interview.slots.clear()` is committed) are modelled
from the spec's data-model section, faithful to its words.
-/

namespace Recruit

/-! ### Wall-clock date and time (model of Python `datetime`)

`DateTime` mirrors the fields of a (naive) Python `datetime`.  Python
enforces `1 ≤ year ≤ 9999`, `1 ≤ month ≤ 12`, a valid day for the month,
`hour < 24`, `minute < 60`, `second < 60` at construction; the Lean
structure carries no such invariant, and the functions below agree with
Python on the valid range. -/

structure DateOnly where
  year : Nat
  month : Nat
  day : Nat
deriving DecidableEq, Repr

structure TimeOfDay where
  hour : Nat
  minute : Nat
deriving DecidableEq, Repr

structure DateTime where
  year : Nat
  month : Nat
  day : Nat
  hour : Nat
  minute : Nat
  second : Nat
deriving DecidableEq, Repr

def isLeap (y : Nat) : Bool :=
  (y % 4 == 0 && y % 100 != 0) || (y % 400 == 0)

def daysInMonth (y m : Nat) : Nat :=
  if m = 2 then (if isLeap y then 29 else 28)
  else if m = 4 ∨ m = 6 ∨ m = 9 ∨ m = 11 then 30
  else 31

/-- Advance a calendar date by one day, with month/year rollover. -/
def nextDay (d : DateOnly) : DateOnly :=
  if d.day < daysInMonth d.year d.month then
    { d with day := d.day + 1 }
  else if d.month < 12 then
    { year := d.year, month := d.month + 1, day := 1 }
  else
    { year := d.year + 1, month := 1, day := 1 }

def addDays (d : DateOnly) : Nat → DateOnly
  | 0 => d
  | n + 1 => addDays (nextDay d) n

/-- Model of `t + timedelta(minutes = m)` for a nonnegative number of
minutes: carry into hours, then days, then roll the calendar date. -/
def addMinutes (t : DateTime) (m : Nat) : DateTime :=
  let total := t.minute + m
  let hcarry := t.hour + total / 60
  let d := addDays ⟨t.year, t.month, t.day⟩ (hcarry / 24)
  { year := d.year, month := d.month, day := d.day,
    hour := hcarry % 24, minute := total % 60, second := t.second }

/-- Model of `datetime.combine(date, time)` (seconds are zero, as produced
by `datetime.strptime(_, "%H:%M").time()`). -/
def combine (d : DateOnly) (t : TimeOfDay) : DateTime :=
  { year := d.year, month := d.month, day := d.day,
    hour := t.hour, minute := t.minute, second := 0 }

/-- Two-digit zero-padded decimal field, as printed by `strftime` for
`%m %d %H %M %S` (fields are below 100 on every valid `datetime`). -/
def pad2 (n : Nat) : String :=
  String.mk [Nat.digitChar (n / 10 % 10), Nat.digitChar (n % 10)]

/-- Four-digit zero-padded decimal field, as printed by `strftime` for `%Y`
on four-digit years. -/
def pad4 (n : Nat) : String :=
  String.mk [Nat.digitChar (n / 1000 % 10), Nat.digitChar (n / 100 % 10),
    Nat.digitChar (n / 10 % 10), Nat.digitChar (n % 10)]

/-- Model of `strftime('%Y%m%dT%H%M%S')`: basic timestamp form
`YYYYMMDDTHHMMSS`, no timezone component. -/
def strftimeBasic (t : DateTime) : String :=
  pad4 t.year ++ pad2 t.month ++ pad2 t.day ++ "T" ++
    pad2 t.hour ++ pad2 t.minute ++ pad2 t.second

def monthAbbrev : Nat → String
  | 1 => "Jan" | 2 => "Feb" | 3 => "Mar" | 4 => "Apr"
  | 5 => "May" | 6 => "Jun" | 7 => "Jul" | 8 => "Aug"
  | 9 => "Sep" | 10 => "Oct" | 11 => "Nov" | 12 => "Dec"
  | _ => "?"

/-- Model of `strftime('%d %b %Y, %I:%M %p')`, used in reschedule
notification/email text. -/
def strftimeLong (t : DateTime) : String :=
  pad2 t.day ++ " " ++ monthAbbrev t.month ++ " " ++ pad4 t.year ++ ", " ++
    pad2 (if t.hour % 12 = 0 then 12 else t.hour % 12) ++ ":" ++
    pad2 t.minute ++ " " ++ (if t.hour < 12 then "AM" else "PM")

/-- `YYYYMMDDTHHMMSS` shape: exactly 15 characters, a literal `T` at index
8 and a decimal digit everywhere else (hence no timezone designator). -/
def isBasicTimestamp (s : String) : Bool :=
  match s.toList with
  | [y1, y2, y3, y4, m1, m2, d1, d2, t, h1, h2, n1, n2, s1, s2] =>
    y1.isDigit && y2.isDigit && y3.isDigit && y4.isDigit &&
      m1.isDigit && m2.isDigit && d1.isDigit && d2.isDigit &&
      t == 'T' &&
      h1.isDigit && h2.isDigit && n1.isDigit && n2.isDigit &&
      s1.isDigit && s2.isDigit
  | _ => false

/-! ### `calendar_utils.generate_interview_ics`

The Python function has a keyword default `duration_minutes = 60`; the
embedding takes the duration explicitly and call sites pass 60. -/

def generate_interview_ics (title description : String) (start_time : DateTime)
    (duration_minutes : Nat) : String :=
  let end_time := addMinutes start_time duration_minutes
  "BEGIN:VCALENDAR\nVERSION:2.0\nPRODID:-//Recruitment Portal//Interview Calendar//EN\nCALSCALE:GREGORIAN\nBEGIN:VEVENT\nSUMMARY:" ++
    title ++ "\nDESCRIPTION:" ++ description ++ "\nDTSTART:" ++
    strftimeBasic start_time ++ "\nDTEND:" ++ strftimeBasic end_time ++
    "\nEND:VEVENT\nEND:VCALENDAR\n"

/-- The single-quote character, used inside f-string message text. -/
def sq : String := (Char.ofNat 39).toString

/-! ### Data model

Modelled from the spec: `models.py` (the SQLAlchemy declarations) is not
among the sources; entity fields follow the spec's data-model section and
the attribute accesses in `interview_api.py`.  `InterviewSlot.is_selected`
defaults to false on insert, `interview.slots.clear()` deletes the slot
rows, role `user` is the candidate role.  Rows carry `Nat` ids in place of
UUIDs/autoincrement keys; related rows (candidate user, job) are flattened
into the fields the interview endpoints actually read (candidate user id
and email, job title, presence of a resume). -/

inductive UserRole where
  | user
  | recruiter
  | admin
deriving DecidableEq, Repr

structure User where
  id : Nat
  role : UserRole
  email : String
  full_name : String
deriving DecidableEq, Repr

inductive ApplicationStatus where
  | applied
  | shortlisted
  | interview
  | rejected
  | offer
deriving DecidableEq, Repr

structure Application where
  id : Nat
  candidate_user_id : Nat
  candidate_email : String
  job_title : String
  has_resume : Bool
  status : ApplicationStatus
deriving DecidableEq, Repr

structure Interview where
  id : Nat
  application_id : Nat
  interview_type : String
  meeting_link : Option String
  location : Option String
  scheduled_at : Option DateTime
  status : String
deriving DecidableEq, Repr

structure Interviewer where
  id : Nat
  email : String
deriving DecidableEq, Repr

structure InterviewInterviewer where
  interview_id : Nat
  interviewer_id : Nat
deriving DecidableEq, Repr

structure InterviewSlot where
  id : Nat
  interview_id : Nat
  start_time : DateTime
  end_time : DateTime
  is_selected : Bool
deriving DecidableEq, Repr

structure Notification where
  user_id : Nat
  title : String
  message : String
deriving DecidableEq, Repr

/-- The database session state: one list per table touched by the
interview endpoints. -/
structure AppDB where
  applications : List Application
  interviews : List Interview
  interviewers : List Interviewer
  interview_interviewers : List InterviewInterviewer
  slots : List InterviewSlot
  notifications : List Notification
deriving DecidableEq, Repr

def findApplication (db : AppDB) (i : Nat) : Option Application :=
  db.applications.find? fun a => a.id == i

def findInterview (db : AppDB) (i : Nat) : Option Interview :=
  db.interviews.find? fun x => x.id == i

def findInterviewByApplication (db : AppDB) (application_id : Nat) : Option Interview :=
  db.interviews.find? fun x => x.application_id == application_id

def findSlot (db : AppDB) (i : Nat) : Option InterviewSlot :=
  db.slots.find? fun s => s.id == i

def maxId (l : List Nat) : Nat := l.foldr max 0

/-- Fresh primary key for a new `Interview` row (stands in for the store's
key generation). -/
def freshInterviewId (db : AppDB) : Nat := maxId (db.interviews.map (·.id)) + 1

/-- Fresh primary key for a new `InterviewSlot` row. -/
def freshSlotId (db : AppDB) : Nat := maxId (db.slots.map (·.id)) + 1

/-- `interview.interviewers`: the interviewer rows joined through
`InterviewInterviewer`, projected to their email addresses (all the
endpoints do with them is send email). -/
def interviewerEmails (db : AppDB) (iid : Nat) : List String :=
  (db.interview_interviewers.filter fun r => r.interview_id == iid).filterMap
    fun r => (db.interviewers.find? fun p => p.id == r.interviewer_id).map (·.email)

/-- `notification_utils.create_notification`: insert a `Notification` row
and commit. -/
def create_notification (db : AppDB) (user_id : Nat) (title message : String) : AppDB :=
  { db with notifications := db.notifications ++ [⟨user_id, title, message⟩] }

/-! ### Operation plumbing -/

structure HTTPException where
  status_code : Nat
  detail : String
deriving DecidableEq, Repr

/-- An operation either raises an `HTTPException`, or raises out of an
unguarded external email/attachment call (`boto3` SES/S3), or returns a
JSON-dict response, modelled as a key-value list. -/
inductive OpErr where
  | http (e : HTTPException)
  | emailFailure
deriving DecidableEq, Repr

abbrev Resp := List (String × String)

instance {ε α : Type} [DecidableEq ε] [DecidableEq α] : DecidableEq (Except ε α) :=
  fun x y =>
    match x, y with
    | .ok a, .ok b =>
        if h : a = b then .isTrue (by rw [h]) else .isFalse (by simp [h])
    | .error a, .error b =>
        if h : a = b then .isTrue (by rw [h]) else .isFalse (by simp [h])
    | .ok _, .error _ => .isFalse (by simp)
    | .error _, .ok _ => .isFalse (by simp)

/-- Outcome of one endpoint call: the returned value or raised error, the
database state as durably committed when the call ends, and the recipients
of the emails actually dispatched. -/
structure OpOut where
  result : Except OpErr Resp
  db : AppDB
  emails : List String
deriving DecidableEq, Repr

/-- `schemas.ScheduleInterviewRequest` (modelled from the spec and the
fields `schedule_interview` reads). -/
structure ScheduleInterviewRequest where
  application_id : Nat
  interview_type : String
  meeting_link : Option String
  location : Option String
  schedule_mode : String
  scheduled_at : Option DateTime
  interviewer_ids : List Nat
deriving DecidableEq, Repr

/-! ### The interview endpoints (`interview_api.py`)

Each endpoint takes the `User` row that `decode_cognito_token` plus the
`db.query(User).filter(cognito_sub, role)` lookup resolves for the bearer
token (the role filter becomes a role test on that row), the request
parameters, and the session state.  `email_ok` is the behaviour of the
external SES/S3 collaborators: when false, the first outbound call raises,
as the unguarded calls in the source would. -/

/-- `POST /interviews/schedule` (`schedule_interview`). -/
def schedule_interview (db : AppDB) (email_ok : Bool) (caller : User)
    (payload : ScheduleInterviewRequest) : OpOut :=
  if caller.role ≠ UserRole.recruiter then
    ⟨.error (.http ⟨403, "Only recruiters can schedule interviews"⟩), db, []⟩
  else
    match findApplication db payload.application_id with
    | none => ⟨.error (.http ⟨404, "Application not found"⟩), db, []⟩
    | some application =>
      if application.status ≠ ApplicationStatus.shortlisted then
        ⟨.error (.http ⟨400, "Candidate must be shortlisted"⟩), db, []⟩
      else if db.interviews.any fun i => i.application_id == application.id then
        ⟨.error (.http ⟨400, "Interview already exists"⟩), db, []⟩
      else
        let iid := freshInterviewId db
        let interview : Interview :=
          { id := iid, application_id := application.id,
            interview_type := payload.interview_type,
            meeting_link := payload.meeting_link, location := payload.location,
            scheduled_at :=
              if payload.schedule_mode == "direct" then payload.scheduled_at else none,
            status := "scheduled" }
        let db1 : AppDB := { db with
          interviews := db.interviews ++ [interview],
          applications := db.applications.map fun a =>
            if a.id == application.id then
              { a with status := ApplicationStatus.interview } else a }
        let db2 : AppDB := { db1 with interview_interviewers :=
          db1.interview_interviewers ++
            payload.interviewer_ids.map fun k => ⟨iid, k⟩ }
        let db3 := create_notification db2 application.candidate_user_id
          "Interview Scheduled"
          ("Your interview for " ++ sq ++ application.job_title ++ sq ++
            " has been scheduled.")
        if payload.schedule_mode == "direct" then
          if email_ok then
            ⟨.ok [("message", "Interview scheduled successfully"),
                  ("interview_id", toString iid)],
             db3,
             (if application.has_resume then [application.candidate_email] else []) ++
               [application.candidate_email] ++ interviewerEmails db3 iid⟩
          else ⟨.error .emailFailure, db3, []⟩
        else
          ⟨.ok [("message", "Interview scheduled successfully"),
                ("interview_id", toString iid)], db3, []⟩

/-- `PUT /interviews/reschedule/{application_id}` (`reschedule_interview`).
The raw `new_scheduled_at` string is represented by the outcome of
`datetime.fromisoformat` on it: `some dt` when it parses, `none` when a
`ValueError` is raised. -/
def reschedule_interview (db : AppDB) (email_ok : Bool) (caller : User)
    (application_id : Nat) (new_scheduled_at : Option DateTime) : OpOut :=
  if caller.role ≠ UserRole.recruiter then
    ⟨.error (.http ⟨403, "Only recruiters can reschedule interviews"⟩), db, []⟩
  else
    match findInterviewByApplication db application_id with
    | none => ⟨.error (.http ⟨404, "Interview not found"⟩), db, []⟩
    | some interview =>
      match findApplication db application_id with
      | none => ⟨.error (.http ⟨500, "Internal Server Error"⟩), db, []⟩
      | some application =>
        if application.status ≠ ApplicationStatus.interview then
          ⟨.error (.http ⟨400, "Only interviews in interview stage can be rescheduled"⟩),
           db, []⟩
        else
          match new_scheduled_at with
          | none => ⟨.error (.http ⟨400, "Invalid datetime format"⟩), db, []⟩
          | some new_dt =>
            let db1 : AppDB := { db with interviews := db.interviews.map fun i =>
              if i.id == interview.id then
                { i with scheduled_at := some new_dt, status := "rescheduled" }
              else i }
            let db2 := create_notification db1 application.candidate_user_id
              "Interview Rescheduled"
              ("Your interview for " ++ sq ++ application.job_title ++ sq ++
                " has been rescheduled to " ++ strftimeLong new_dt ++ ".")
            if email_ok then
              ⟨.ok [("message", "Interview rescheduled successfully")], db2,
               [application.candidate_email] ++ interviewerEmails db2 interview.id⟩
            else ⟨.error .emailFailure, db2, []⟩

/-- Shared cancel core (`_cancel_interview`). -/
def cancelInterviewCore (db : AppDB) (application_id : Nat)
    (cancelled_by : String) : OpOut :=
  match findInterviewByApplication db application_id with
  | none => ⟨.error (.http ⟨404, "Interview not found"⟩), db, []⟩
  | some interview =>
    match findApplication db application_id with
    | none => ⟨.error (.http ⟨500, "Internal Server Error"⟩), db, []⟩
    | some application =>
      let db1 : AppDB := { db with
        interviews := db.interviews.map fun i =>
          if i.id == interview.id then
            { i with status := "cancelled", scheduled_at := none } else i,
        applications := db.applications.map fun a =>
          if a.id == application_id then
            { a with status := ApplicationStatus.rejected } else a }
      let db2 := create_notification db1 application.candidate_user_id
        "Interview Cancelled"
        ("Your interview was cancelled by the " ++ cancelled_by ++
          ". Your application has been marked as rejected.")
      ⟨.ok [("message", "Interview cancelled by " ++ cancelled_by),
            ("new_status", "rejected")], db2, []⟩

/-- `PUT /interviews/cancel/{application_id}`
(`cancel_interview_by_recruiter`). -/
def cancel_interview_by_recruiter (db : AppDB) (caller : User)
    (application_id : Nat) : OpOut :=
  if caller.role ≠ UserRole.recruiter then
    ⟨.error (.http ⟨403, "Only recruiters can cancel interviews"⟩), db, []⟩
  else cancelInterviewCore db application_id "recruiter"

/-- `PUT /interviews/cancel-by-candidate/{application_id}`
(`cancel_interview_by_candidate`). -/
def cancel_interview_by_candidate (db : AppDB) (caller : User)
    (application_id : Nat) : OpOut :=
  if caller.role ≠ UserRole.user then
    ⟨.error (.http ⟨403, "Only candidates can cancel interviews"⟩), db, []⟩
  else cancelInterviewCore db application_id "candidate"

/-- The loop body of `add_interview_slots`: one `InterviewSlot` row per
`{start_time, end_time}` pair, combining the supplied date with each
local-time pair, with consecutive fresh ids and `is_selected` left at its
false default. -/
def buildSlots (iid base : Nat) (d : DateOnly) :
    List (TimeOfDay × TimeOfDay) → List InterviewSlot
  | [] => []
  | p :: rest =>
    { id := base, interview_id := iid, start_time := combine d p.1,
      end_time := combine d p.2, is_selected := false } ::
      buildSlots iid (base + 1) d rest

/-- `POST /interviews/slots/{interview_id}` (`add_interview_slots`).  Each
input pair is the `(%H:%M)`-parsed wall-clock pair from the request body. -/
def add_interview_slots (db : AppDB) (email_ok : Bool) (caller : User)
    (interview_id : Nat) (interview_date : DateOnly)
    (slots : List (TimeOfDay × TimeOfDay)) : OpOut :=
  if caller.role ≠ UserRole.recruiter then
    ⟨.error (.http ⟨403, "Only recruiters allowed"⟩), db, []⟩
  else
    match findInterview db interview_id with
    | none => ⟨.error (.http ⟨404, "Interview not found"⟩), db, []⟩
    | some interview =>
      let newSlots :=
        db.slots.filter (fun s => s.interview_id != interview.id) ++
          buildSlots interview.id (freshSlotId db) interview_date slots
      let db1 : AppDB := { db with slots := newSlots }
      match findApplication db1 interview.application_id with
      | none => ⟨.error (.http ⟨500, "Internal Server Error"⟩), db1, []⟩
      | some application =>
        if email_ok then
          ⟨.ok [("message", "Interview slots sent to candidate")], db1,
           [application.candidate_email]⟩
        else ⟨.error .emailFailure, db1, []⟩

/-- The pair of updates in `select_interview_slot`: the bulk
`update({"is_selected": False})` over the interview's slots, then
`slot.is_selected = True` on the fetched slot. -/
def setSelected (slots : List InterviewSlot) (iid sid : Nat) : List InterviewSlot :=
  (slots.map fun t =>
      if t.interview_id == iid then { t with is_selected := false } else t).map
    fun t => if t.id == sid then { t with is_selected := true } else t

/-- `PUT /interviews/slots/select/{slot_id}` (`select_interview_slot`). -/
def select_interview_slot (db : AppDB) (email_ok : Bool) (caller : User)
    (slot_id : Nat) : OpOut :=
  if caller.role ≠ UserRole.user then
    ⟨.error (.http ⟨403, "Only candidates can select slots"⟩), db, []⟩
  else
    match findSlot db slot_id with
    | none => ⟨.error (.http ⟨404, "Slot not found"⟩), db, []⟩
    | some slot =>
      match findInterview db slot.interview_id with
      | none => ⟨.error (.http ⟨500, "Internal Server Error"⟩), db, []⟩
      | some interview =>
        match findApplication db interview.application_id with
        | none => ⟨.error (.http ⟨500, "Internal Server Error"⟩), db, []⟩
        | some application =>
          if interview.scheduled_at.isSome then
            ⟨.error (.http ⟨400, "Interview already confirmed"⟩), db, []⟩
          else
            let db1 : AppDB := { db with
              slots := setSelected db.slots interview.id slot.id,
              interviews := db.interviews.map fun i =>
                if i.id == interview.id then
                  { i with scheduled_at := some slot.start_time } else i }
            if email_ok then
              ⟨.ok [("message", "Interview slot confirmed successfully")], db1,
               (if application.has_resume then [caller.email] else []) ++
                 [caller.email] ++ interviewerEmails db1 interview.id⟩
            else ⟨.error .emailFailure, db1, []⟩

/-! ### The exposed operations as a transition system -/

inductive Op where
  | schedule (caller : User) (payload : ScheduleInterviewRequest)
  | reschedule (caller : User) (application_id : Nat)
      (new_scheduled_at : Option DateTime)
  | cancelByRecruiter (caller : User) (application_id : Nat)
  | cancelByCandidate (caller : User) (application_id : Nat)
  | offerSlots (caller : User) (interview_id : Nat) (interview_date : DateOnly)
      (slots : List (TimeOfDay × TimeOfDay))
  | selectSlot (caller : User) (slot_id : Nat)

def runOp (db : AppDB) (email_ok : Bool) : Op → OpOut
  | .schedule c p => schedule_interview db email_ok c p
  | .reschedule c a dt => reschedule_interview db email_ok c a dt
  | .cancelByRecruiter c a => cancel_interview_by_recruiter db c a
  | .cancelByCandidate c a => cancel_interview_by_candidate db c a
  | .offerSlots c i d s => add_interview_slots db email_ok c i d s
  | .selectSlot c s => select_interview_slot db email_ok c s

def stepDb (db : AppDB) (email_ok : Bool) (op : Op) : AppDB :=
  (runOp db email_ok op).db

/-- States reachable through the exposed operations, from any state the
core starts from: applications and interviewer rows exist (created outside
this core), no interviews, assignments, slots or notifications yet. -/
inductive Reachable : AppDB → Prop where
  | init (applications : List Application) (interviewers : List Interviewer) :
      Reachable ⟨applications, [], interviewers, [], [], []⟩
  | step (db : AppDB) (email_ok : Bool) (op : Op) :
      Reachable db → Reachable (stepDb db email_ok op)

/-! ### Error taxonomy (spec section 7, mapped onto the raised status codes) -/

/-- `PermissionDenied`: the endpoint raised a 403. -/
def PermissionDenied (r : Except OpErr Resp) : Prop :=
  ∃ e, r = Except.error (OpErr.http e) ∧ e.status_code = 403

/-- `NotFound`: the endpoint raised a 404. -/
def NotFound (r : Except OpErr Resp) : Prop :=
  ∃ e, r = Except.error (OpErr.http e) ∧ e.status_code = 404

/-- `InvalidState`: a 400 other than the malformed-datetime one. -/
def InvalidState (r : Except OpErr Resp) : Prop :=
  ∃ e, r = Except.error (OpErr.http e) ∧ e.status_code = 400 ∧
    e.detail ≠ "Invalid datetime format"

/-- `InvalidInput`: the malformed-datetime 400. -/
def InvalidInput (r : Except OpErr Resp) : Prop :=
  r = Except.error (OpErr.http ⟨400, "Invalid datetime format"⟩)

/-! ### Concrete scenario data (used by witnesses and counterexamples)

The spec's scenarios A-D: one shortlisted application, a recruiter, the
candidate; slot-offer scheduling, a slot batch on 2025-03-12, selection of
the 09:00 slot, then cancellation by the candidate. -/

def recruiterU : User := ⟨100, UserRole.recruiter, "recruiter@example.com", "R"⟩

def candidateU : User := ⟨10, UserRole.user, "candidate@example.com", "C"⟩

def candidateU2 : User := ⟨11, UserRole.user, "other@example.com", "C2"⟩

def app1 : Application :=
  ⟨1, 10, "candidate@example.com", "Engineer", false, ApplicationStatus.shortlisted⟩

def db0 : AppDB := ⟨[app1], [], [], [], [], []⟩

def payloadSlots : ScheduleInterviewRequest :=
  ⟨1, "online", some "m", none, "slots", none, []⟩

def payloadDirect : ScheduleInterviewRequest :=
  ⟨1, "online", some "m", none, "direct", some ⟨2025, 3, 10, 10, 0, 0⟩, []⟩

def dbScheduled : AppDB := stepDb db0 true (Op.schedule recruiterU payloadSlots)

def slotBatch : List (TimeOfDay × TimeOfDay) :=
  [(⟨9, 0⟩, ⟨9, 30⟩), (⟨10, 0⟩, ⟨10, 30⟩), (⟨11, 0⟩, ⟨11, 30⟩)]

def dbOffered : AppDB :=
  stepDb dbScheduled true (Op.offerSlots recruiterU 1 ⟨2025, 3, 12⟩ slotBatch)

def dbSelected : AppDB := stepDb dbOffered true (Op.selectSlot candidateU 1)

def dbCancelled : AppDB :=
  stepDb dbSelected true (Op.cancelByCandidate candidateU 1)

/-! ### Helper lemmas -/

theorem digitChar_mod10_isDigit (n : Nat) :
    (Nat.digitChar (n % 10)).isDigit = true := by
  have h : n % 10 < 10 := Nat.mod_lt _ (by norm_num)
  have hall : ∀ m, m < 10 → (Nat.digitChar m).isDigit = true := by decide
  exact hall _ h

theorem strftimeBasic_toList (t : DateTime) :
    (strftimeBasic t).toList =
      [Nat.digitChar (t.year / 1000 % 10), Nat.digitChar (t.year / 100 % 10),
       Nat.digitChar (t.year / 10 % 10), Nat.digitChar (t.year % 10),
       Nat.digitChar (t.month / 10 % 10), Nat.digitChar (t.month % 10),
       Nat.digitChar (t.day / 10 % 10), Nat.digitChar (t.day % 10), 'T',
       Nat.digitChar (t.hour / 10 % 10), Nat.digitChar (t.hour % 10),
       Nat.digitChar (t.minute / 10 % 10), Nat.digitChar (t.minute % 10),
       Nat.digitChar (t.second / 10 % 10), Nat.digitChar (t.second % 10)] := by
  simp [strftimeBasic, pad4, pad2, String.toList, String.data_append]

theorem isBasicTimestamp_strftimeBasic (t : DateTime) :
    isBasicTimestamp (strftimeBasic t) = true := by
  rw [isBasicTimestamp, strftimeBasic_toList]
  simp [digitChar_mod10_isDigit]

/-- The two update passes of `select_interview_slot`, pointwise: the chosen
slot becomes selected, every other slot of the same interview becomes
unselected, slots of other interviews are untouched. -/
theorem setSelected_eq_map (l : List InterviewSlot) (iid sid : Nat) :
    setSelected l iid sid = l.map fun t =>
      if t.id = sid then { t with is_selected := true }
      else if t.interview_id = iid then { t with is_selected := false }
      else t := by
  unfold setSelected
  rw [List.map_map]
  refine List.map_congr_left fun t _ => ?_
  by_cases h1 : t.interview_id = iid <;> by_cases h2 : t.id = sid <;>
    simp [Function.comp, h1, h2]

/-! ### Claims -/

/-- C10: for every title, description and start datetime, the generated
calendar-invite artifact is the text block with fields `SUMMARY`,
`DESCRIPTION`, `DTSTART` and `DTEND`, the two timestamps in basic
`YYYYMMDDTHHMMSS` form with no timezone component, and `DTEND` the start
time plus 60 minutes (the source's default duration). -/
theorem claim_C10_ics_artifact (title description : String) (start_time : DateTime) :
    generate_interview_ics title description start_time 60 =
      "BEGIN:VCALENDAR\nVERSION:2.0\nPRODID:-//Recruitment Portal//Interview Calendar//EN\nCALSCALE:GREGORIAN\nBEGIN:VEVENT\nSUMMARY:" ++
        title ++ "\nDESCRIPTION:" ++ description ++ "\nDTSTART:" ++
        strftimeBasic start_time ++ "\nDTEND:" ++
        strftimeBasic (addMinutes start_time 60) ++
        "\nEND:VEVENT\nEND:VCALENDAR\n" ∧
    isBasicTimestamp (strftimeBasic start_time) = true ∧
    isBasicTimestamp (strftimeBasic (addMinutes start_time 60)) = true :=
  ⟨rfl, isBasicTimestamp_strftimeBasic start_time,
    isBasicTimestamp_strftimeBasic (addMinutes start_time 60)⟩

/-- C1: a slot-selection request by a candidate-role caller on an existing
slot: when the interview's `scheduled_at` is null, the chosen slot is
marked selected, every other slot of the same interview is unselected, and
the interview's `scheduled_at` becomes the chosen slot's `start_time`;
when `scheduled_at` is already non-null, the call fails with
`InvalidState` (400 "Interview already confirmed") and the state is
unchanged. -/
theorem claim_C1_select_slot (db : AppDB) (email_ok : Bool) (caller : User)
    (slot_id : Nat) (slot : InterviewSlot) (itv : Interview) (app : Application)
    (hrole : caller.role = UserRole.user)
    (hs : findSlot db slot_id = some slot)
    (hi : findInterview db slot.interview_id = some itv)
    (ha : findApplication db itv.application_id = some app) :
    (itv.scheduled_at = none →
      (select_interview_slot db email_ok caller slot_id).db.slots =
        db.slots.map (fun t =>
          if t.id = slot.id then { t with is_selected := true }
          else if t.interview_id = itv.id then { t with is_selected := false }
          else t) ∧
      (select_interview_slot db email_ok caller slot_id).db.interviews =
        db.interviews.map (fun i =>
          if i.id = itv.id then { i with scheduled_at := some slot.start_time }
          else i) ∧
      (select_interview_slot db email_ok caller slot_id).db.applications =
        db.applications) ∧
    (itv.scheduled_at ≠ none →
      (select_interview_slot db email_ok caller slot_id).result =
        Except.error (OpErr.http ⟨400, "Interview already confirmed"⟩) ∧
      InvalidState (select_interview_slot db email_ok caller slot_id).result ∧
      (select_interview_slot db email_ok caller slot_id).db = db) := by
  constructor
  · intro hnull
    unfold select_interview_slot
    simp only [hrole, hs, hi, ha, hnull]
    cases email_ok <;> simp [setSelected_eq_map]
  · intro hsome
    unfold select_interview_slot
    have hsm : itv.scheduled_at.isSome = true := by
      cases h : itv.scheduled_at with
      | none => exact absurd h hsome
      | some _ => rfl
    simp only [hrole, hs, hi, ha, hsm]
    refine ⟨by simp, ⟨⟨400, "Interview already confirmed"⟩, by simp, rfl, by simp⟩, by simp⟩

/-- The 09:00 slot row as it stands in `dbOffered`. -/
def slotW : InterviewSlot :=
  ⟨1, 1, ⟨2025, 3, 12, 9, 0, 0⟩, ⟨2025, 3, 12, 9, 30, 0⟩, false⟩

/-- The interview row as it stands in `dbOffered`. -/
def itvW : Interview := ⟨1, 1, "online", some "m", none, none, "scheduled"⟩

/-- The application row as it stands in `dbOffered`. -/
def appW : Application :=
  ⟨1, 10, "candidate@example.com", "Engineer", false, ApplicationStatus.interview⟩

/-- Witness for C1 at the scenario state `dbOffered` (interview with three
offered slots, `scheduled_at` null), selecting slot 1. -/
theorem claim_C1_select_slot_witness :
    (select_interview_slot dbOffered true candidateU 1).db.slots =
      dbOffered.slots.map (fun t =>
        if t.id = slotW.id then { t with is_selected := true }
        else if t.interview_id = itvW.id then { t with is_selected := false }
        else t) ∧
    (select_interview_slot dbOffered true candidateU 1).db.interviews =
      dbOffered.interviews.map (fun i =>
        if i.id = itvW.id then { i with scheduled_at := some slotW.start_time }
        else i) ∧
    (select_interview_slot dbOffered true candidateU 1).db.applications =
      dbOffered.applications :=
  (claim_C1_select_slot dbOffered true candidateU 1 slotW itvW appW rfl
    (by decide) (by decide) (by decide)).1 rfl

/-- C4: for every cancel request, by recruiter or candidate: with the
matching role and an existing interview for the application, the
interview's status becomes `cancelled` and its `scheduled_at` null, the
application's status becomes `rejected`, and an "Interview Cancelled"
notification is recorded for the candidate; with no interview for the
application the call fails with `NotFound`; without the matching role it
fails with `PermissionDenied`. -/
theorem claim_C4_cancel (db : AppDB) (caller : User) (application_id : Nat) :
    (∀ itv app, findInterviewByApplication db application_id = some itv →
      findApplication db application_id = some app →
      (caller.role = UserRole.recruiter →
        (cancel_interview_by_recruiter db caller application_id).db.interviews =
          db.interviews.map (fun i =>
            if i.id = itv.id then
              { i with status := "cancelled", scheduled_at := none } else i) ∧
        (cancel_interview_by_recruiter db caller application_id).db.applications =
          db.applications.map (fun a =>
            if a.id = application_id then
              { a with status := ApplicationStatus.rejected } else a) ∧
        (cancel_interview_by_recruiter db caller application_id).db.notifications =
          db.notifications ++
            [⟨app.candidate_user_id, "Interview Cancelled",
              "Your interview was cancelled by the recruiter. Your application has been marked as rejected."⟩] ∧
        (cancel_interview_by_recruiter db caller application_id).result =
          Except.ok [("message", "Interview cancelled by recruiter"),
            ("new_status", "rejected")]) ∧
      (caller.role = UserRole.user →
        (cancel_interview_by_candidate db caller application_id).db.interviews =
          db.interviews.map (fun i =>
            if i.id = itv.id then
              { i with status := "cancelled", scheduled_at := none } else i) ∧
        (cancel_interview_by_candidate db caller application_id).db.applications =
          db.applications.map (fun a =>
            if a.id = application_id then
              { a with status := ApplicationStatus.rejected } else a) ∧
        (cancel_interview_by_candidate db caller application_id).db.notifications =
          db.notifications ++
            [⟨app.candidate_user_id, "Interview Cancelled",
              "Your interview was cancelled by the candidate. Your application has been marked as rejected."⟩] ∧
        (cancel_interview_by_candidate db caller application_id).result =
          Except.ok [("message", "Interview cancelled by candidate"),
            ("new_status", "rejected")])) ∧
    (findInterviewByApplication db application_id = none →
      (caller.role = UserRole.recruiter →
        NotFound (cancel_interview_by_recruiter db caller application_id).result ∧
        (cancel_interview_by_recruiter db caller application_id).db = db) ∧
      (caller.role = UserRole.user →
        NotFound (cancel_interview_by_candidate db caller application_id).result ∧
        (cancel_interview_by_candidate db caller application_id).db = db)) ∧
    (caller.role ≠ UserRole.recruiter →
      PermissionDenied (cancel_interview_by_recruiter db caller application_id).result ∧
      (cancel_interview_by_recruiter db caller application_id).db = db) ∧
    (caller.role ≠ UserRole.user →
      PermissionDenied (cancel_interview_by_candidate db caller application_id).result ∧
      (cancel_interview_by_candidate db caller application_id).db = db) := by
  refine ⟨fun itv app hi ha => ⟨fun hrole => ?_, fun hrole => ?_⟩,
    fun hnone => ⟨fun hrole => ?_, fun hrole => ?_⟩,
    fun hrole => ?_, fun hrole => ?_⟩
  · unfold cancel_interview_by_recruiter cancelInterviewCore
    simp [hrole, hi, ha, create_notification]
  · unfold cancel_interview_by_candidate cancelInterviewCore
    simp [hrole, hi, ha, create_notification]
  · unfold cancel_interview_by_recruiter cancelInterviewCore
    simp only [hrole, hnone]
    exact ⟨⟨⟨404, "Interview not found"⟩, by simp, rfl⟩, by simp⟩
  · unfold cancel_interview_by_candidate cancelInterviewCore
    simp only [hrole, hnone]
    exact ⟨⟨⟨404, "Interview not found"⟩, by simp, rfl⟩, by simp⟩
  · unfold cancel_interview_by_recruiter
    rw [if_pos hrole]
    exact ⟨⟨⟨403, "Only recruiters can cancel interviews"⟩, rfl, rfl⟩, rfl⟩
  · unfold cancel_interview_by_candidate
    rw [if_pos hrole]
    exact ⟨⟨⟨403, "Only candidates can cancel interviews"⟩, rfl, rfl⟩, rfl⟩

/-- The interview row as it stands in `dbSelected` (slot 1 confirmed). -/
def itvSel : Interview :=
  ⟨1, 1, "online", some "m", none, some ⟨2025, 3, 12, 9, 0, 0⟩, "scheduled"⟩

/-- Witness for C4: the candidate cancels the confirmed interview of the
scenario (spec scenario D). -/
theorem claim_C4_cancel_witness :
    (cancel_interview_by_candidate dbSelected candidateU 1).db.interviews =
      dbSelected.interviews.map (fun i =>
        if i.id = itvSel.id then
          { i with status := "cancelled", scheduled_at := none } else i) ∧
    (cancel_interview_by_candidate dbSelected candidateU 1).db.applications =
      dbSelected.applications.map (fun a =>
        if a.id = 1 then { a with status := ApplicationStatus.rejected } else a) ∧
    (cancel_interview_by_candidate dbSelected candidateU 1).db.notifications =
      dbSelected.notifications ++
        [⟨appW.candidate_user_id, "Interview Cancelled",
          "Your interview was cancelled by the candidate. Your application has been marked as rejected."⟩] ∧
    (cancel_interview_by_candidate dbSelected candidateU 1).result =
      Except.ok [("message", "Interview cancelled by candidate"),
        ("new_status", "rejected")] :=
  ((claim_C4_cancel dbSelected candidateU 1).1 itvSel appW (by decide) (by decide)).2
    rfl

/-- C7: for every reschedule request by a recruiter on an application that
has an interview: if the application's status is not `interview` the call
fails with `InvalidState`; if the supplied datetime string does not parse
(`new_scheduled_at = none`, the outcome of `datetime.fromisoformat`) it
fails with `InvalidInput`; otherwise the interview's `scheduled_at` is set
to the new datetime and its status becomes `rescheduled`; on either
failure no state changes. -/
theorem claim_C7_reschedule (db : AppDB) (email_ok : Bool) (caller : User)
    (application_id : Nat) (new_scheduled_at : Option DateTime)
    (itv : Interview) (app : Application)
    (hrole : caller.role = UserRole.recruiter)
    (hi : findInterviewByApplication db application_id = some itv)
    (ha : findApplication db application_id = some app) :
    (app.status ≠ ApplicationStatus.interview →
      (reschedule_interview db email_ok caller application_id new_scheduled_at).result =
        Except.error (OpErr.http
          ⟨400, "Only interviews in interview stage can be rescheduled"⟩) ∧
      InvalidState
        (reschedule_interview db email_ok caller application_id new_scheduled_at).result ∧
      (reschedule_interview db email_ok caller application_id new_scheduled_at).db =
        db) ∧
    (app.status = ApplicationStatus.interview → new_scheduled_at = none →
      InvalidInput
        (reschedule_interview db email_ok caller application_id new_scheduled_at).result ∧
      (reschedule_interview db email_ok caller application_id new_scheduled_at).db =
        db) ∧
    (∀ new_dt, app.status = ApplicationStatus.interview →
      new_scheduled_at = some new_dt →
      (reschedule_interview db email_ok caller application_id new_scheduled_at).db.interviews =
        db.interviews.map (fun i =>
          if i.id = itv.id then
            { i with scheduled_at := some new_dt, status := "rescheduled" }
          else i) ∧
      (reschedule_interview db email_ok caller application_id new_scheduled_at).db.applications =
        db.applications ∧
      (reschedule_interview db email_ok caller application_id new_scheduled_at).db.slots =
        db.slots ∧
      (email_ok = true →
        (reschedule_interview db email_ok caller application_id new_scheduled_at).result =
          Except.ok [("message", "Interview rescheduled successfully")])) := by
  refine ⟨fun hst => ?_, fun hst hnone => ?_, fun new_dt hst hsome => ?_⟩
  · unfold reschedule_interview
    simp only [hrole, hi, ha]
    rw [if_pos hst]
    exact ⟨rfl, ⟨⟨400, "Only interviews in interview stage can be rescheduled"⟩,
      rfl, rfl, by simp⟩, rfl⟩
  · unfold reschedule_interview
    simp only [hrole, hi, ha, hst, hnone]
    exact ⟨rfl, rfl⟩
  · unfold reschedule_interview
    simp only [hrole, hi, ha, hst, hsome]
    cases email_ok <;> simp [create_notification]

/-- The new timestamp used in the C7 witness. -/
def newDT : DateTime := ⟨2025, 3, 15, 14, 0, 0⟩

/-- Witness for C7: rescheduling the scenario's confirmed interview (its
application is in `interview` stage) to 2025-03-15 14:00. -/
theorem claim_C7_reschedule_witness :
    (reschedule_interview dbSelected true recruiterU 1 (some newDT)).db.interviews =
      dbSelected.interviews.map (fun i =>
        if i.id = itvSel.id then
          { i with scheduled_at := some newDT, status := "rescheduled" }
        else i) ∧
    (reschedule_interview dbSelected true recruiterU 1 (some newDT)).db.applications =
      dbSelected.applications ∧
    (reschedule_interview dbSelected true recruiterU 1 (some newDT)).db.slots =
      dbSelected.slots ∧
    (true = true →
      (reschedule_interview dbSelected true recruiterU 1 (some newDT)).result =
        Except.ok [("message", "Interview rescheduled successfully")]) :=
  (claim_C7_reschedule dbSelected true recruiterU 1 (some newDT)
      itvSel appW rfl (by decide) (by decide)).2.2
    newDT (by decide) rfl

/-- `find?` past an element-wise update that does not change whether the
predicate holds. -/
theorem find?_map_comm {α : Type} (l : List α) (p : α → Bool) (f : α → α)
    (hf : ∀ a, p (f a) = p a) : (l.map f).find? p = (l.find? p).map f := by
  induction l with
  | nil => rfl
  | cons x xs ih =>
    cases h : p x with
    | true => simp [List.find?_cons, hf, h]
    | false => simp [List.find?_cons, hf, h, ih]

/-- C3: creating an interview: a caller without the recruiter role fails
with `PermissionDenied`; a missing application fails with `NotFound`; an
application that is not shortlisted, or one that already has an interview,
fails with `InvalidState`; otherwise exactly one `Interview` row is
inserted, its `scheduled_at` the requested datetime in direct mode and
null otherwise, the application's status becomes `interview`, and the
requested interviewers are attached.  A second create attempt on the same
application (by any recruiter, with any payload) then fails with
`InvalidState` and changes nothing. -/
theorem claim_C3_schedule (db : AppDB) (email_ok : Bool) (caller : User)
    (payload : ScheduleInterviewRequest) :
    (caller.role ≠ UserRole.recruiter →
      PermissionDenied (schedule_interview db email_ok caller payload).result ∧
      (schedule_interview db email_ok caller payload).db = db) ∧
    (caller.role = UserRole.recruiter →
      (findApplication db payload.application_id = none →
        NotFound (schedule_interview db email_ok caller payload).result ∧
        (schedule_interview db email_ok caller payload).db = db) ∧
      (∀ app, findApplication db payload.application_id = some app →
        (app.status ≠ ApplicationStatus.shortlisted →
          (schedule_interview db email_ok caller payload).result =
            Except.error (OpErr.http ⟨400, "Candidate must be shortlisted"⟩) ∧
          InvalidState (schedule_interview db email_ok caller payload).result ∧
          (schedule_interview db email_ok caller payload).db = db) ∧
        (app.status = ApplicationStatus.shortlisted →
          ((∃ i ∈ db.interviews, i.application_id = app.id) →
            (schedule_interview db email_ok caller payload).result =
              Except.error (OpErr.http ⟨400, "Interview already exists"⟩) ∧
            InvalidState (schedule_interview db email_ok caller payload).result ∧
            (schedule_interview db email_ok caller payload).db = db) ∧
          ((∀ i ∈ db.interviews, i.application_id ≠ app.id) →
            (schedule_interview db email_ok caller payload).db.interviews =
              db.interviews ++
                [{ id := freshInterviewId db, application_id := app.id,
                   interview_type := payload.interview_type,
                   meeting_link := payload.meeting_link,
                   location := payload.location,
                   scheduled_at :=
                     if payload.schedule_mode = "direct" then payload.scheduled_at
                     else none,
                   status := "scheduled" }] ∧
            (schedule_interview db email_ok caller payload).db.applications =
              db.applications.map (fun a =>
                if a.id = app.id then
                  { a with status := ApplicationStatus.interview } else a) ∧
            (schedule_interview db email_ok caller payload).db.interview_interviewers =
              db.interview_interviewers ++
                payload.interviewer_ids.map
                  (fun k => ⟨freshInterviewId db, k⟩) ∧
            (∀ caller2 payload2 email_ok2,
              caller2.role = UserRole.recruiter →
              payload2.application_id = payload.application_id →
              InvalidState
                (schedule_interview (schedule_interview db email_ok caller payload).db
                  email_ok2 caller2 payload2).result ∧
              (schedule_interview (schedule_interview db email_ok caller payload).db
                  email_ok2 caller2 payload2).db =
                (schedule_interview db email_ok caller payload).db))))) := by
  constructor
  · intro hrole
    unfold schedule_interview
    rw [if_pos hrole]
    exact ⟨⟨⟨403, "Only recruiters can schedule interviews"⟩, rfl, rfl⟩, rfl⟩
  · intro hrole
    constructor
    · intro hnone
      unfold schedule_interview
      simp only [hrole, hnone]
      exact ⟨⟨⟨404, "Application not found"⟩, by simp, rfl⟩, by simp⟩
    · intro app ha
      constructor
      · intro hst
        unfold schedule_interview
        simp only [hrole, ha]
        rw [if_pos hst]
        exact ⟨by simp, ⟨⟨400, "Candidate must be shortlisted"⟩, by simp, rfl,
          by simp⟩, by simp⟩
      · intro hst
        constructor
        · intro hex
          have hany : (db.interviews.any fun i => i.application_id == app.id) = true := by
            simp only [List.any_eq_true, beq_iff_eq]
            exact hex
          unfold schedule_interview
          simp only [hrole, ha, hst, hany]
          exact ⟨by simp, ⟨⟨400, "Interview already exists"⟩, by simp, rfl,
            by simp⟩, by simp⟩
        · intro hnoex
          have hany : (db.interviews.any fun i => i.application_id == app.id) = false := by
            simp only [List.any_eq_false, beq_iff_eq]
            exact hnoex
          have happ_id : app.id = payload.application_id := by
            have := List.find?_some ha
            simpa using this
          refine ⟨?_, ?_, ?_, ?_⟩
          · unfold schedule_interview
            simp only [hrole, ha, hst, hany]
            cases hm : payload.schedule_mode == "direct" <;>
              cases email_ok <;>
              simp_all [create_notification]
          · unfold schedule_interview
            simp only [hrole, ha, hst, hany]
            cases hm : payload.schedule_mode == "direct" <;>
              cases email_ok <;>
              simp_all [create_notification]
          · unfold schedule_interview
            simp only [hrole, ha, hst, hany]
            cases hm : payload.schedule_mode == "direct" <;>
              cases email_ok <;>
              simp_all [create_notification]
          · intro caller2 payload2 email_ok2 hrole2 hp2
            have hdbapps : (schedule_interview db email_ok caller payload).db.applications =
                db.applications.map (fun a =>
                  if a.id == app.id then
                    { a with status := ApplicationStatus.interview } else a) := by
              unfold schedule_interview
              simp only [hrole, ha, hst, hany]
              cases hm : payload.schedule_mode == "direct" <;>
                cases email_ok <;>
                simp_all [create_notification]
            generalize hG : (schedule_interview db email_ok caller payload).db = post at hdbapps ⊢
            have hfind2 : findApplication post payload2.application_id =
                some { app with status := ApplicationStatus.interview } := by
              unfold findApplication
              rw [hdbapps, hp2, find?_map_comm]
              · rw [show (db.applications.find? fun a => a.id == payload.application_id) =
                    some app from ha]
                simp [happ_id]
              · intro a
                by_cases h : a.id = app.id <;> simp [h]
            unfold schedule_interview
            simp only [hrole2, hfind2]
            refine ⟨⟨⟨400, "Candidate must be shortlisted"⟩, by simp, rfl, by simp⟩,
              by simp⟩

/-- Witness for C3: direct-mode scheduling on the shortlisted scenario
application succeeds and inserts exactly one interview; an immediate
second attempt fails with `InvalidState`. -/
theorem claim_C3_schedule_witness :
    (schedule_interview db0 true recruiterU payloadDirect).db.interviews =
      db0.interviews ++
        [{ id := freshInterviewId db0, application_id := app1.id,
           interview_type := payloadDirect.interview_type,
           meeting_link := payloadDirect.meeting_link,
           location := payloadDirect.location,
           scheduled_at :=
             if payloadDirect.schedule_mode = "direct" then
               payloadDirect.scheduled_at
             else none,
           status := "scheduled" }] ∧
    (schedule_interview db0 true recruiterU payloadDirect).db.applications =
      db0.applications.map (fun a =>
        if a.id = app1.id then
          { a with status := ApplicationStatus.interview } else a) ∧
    (schedule_interview db0 true recruiterU payloadDirect).db.interview_interviewers =
      db0.interview_interviewers ++
        payloadDirect.interviewer_ids.map (fun k => ⟨freshInterviewId db0, k⟩) ∧
    InvalidState
      (schedule_interview (schedule_interview db0 true recruiterU payloadDirect).db
        true recruiterU payloadDirect).result := by
  have h := (((((claim_C3_schedule db0 true recruiterU payloadDirect).2 rfl).2
    app1 (by decide)).2 rfl).2) (by decide)
  exact ⟨h.1, h.2.1, h.2.2.1,
    (h.2.2.2 recruiterU payloadDirect true rfl rfl).1⟩

/-- The observable content of a slot row: everything except the
storage-assigned primary key. -/
def slotData (s : InterviewSlot) : Nat × DateTime × DateTime × Bool :=
  (s.interview_id, s.start_time, s.end_time, s.is_selected)

theorem buildSlots_data (iid base : Nat) (d : DateOnly)
    (ps : List (TimeOfDay × TimeOfDay)) :
    (buildSlots iid base d ps).map slotData =
      ps.map (fun p => (iid, combine d p.1, combine d p.2, false)) := by
  induction ps generalizing base with
  | nil => rfl
  | cons p rest ih => simp [buildSlots, slotData, ih]

theorem buildSlots_length (iid base : Nat) (d : DateOnly)
    (ps : List (TimeOfDay × TimeOfDay)) :
    (buildSlots iid base d ps).length = ps.length := by
  induction ps generalizing base with
  | nil => rfl
  | cons p rest ih => simp [buildSlots, ih]

theorem buildSlots_interview_id (iid base : Nat) (d : DateOnly)
    (ps : List (TimeOfDay × TimeOfDay)) :
    ∀ s ∈ buildSlots iid base d ps, s.interview_id = iid := by
  induction ps generalizing base with
  | nil => intro s hs; cases hs
  | cons p rest ih =>
    intro s hs
    rcases List.mem_cons.mp hs with hs | hs
    · subst hs; rfl
    · exact ih (base + 1) s hs

theorem buildSlots_not_selected (iid base : Nat) (d : DateOnly)
    (ps : List (TimeOfDay × TimeOfDay)) :
    ∀ s ∈ buildSlots iid base d ps, s.is_selected = false := by
  induction ps generalizing base with
  | nil => intro s hs; cases hs
  | cons p rest ih =>
    intro s hs
    rcases List.mem_cons.mp hs with hs | hs
    · subst hs; rfl
    · exact ih (base + 1) s hs

theorem buildSlots_id_ge (iid base : Nat) (d : DateOnly)
    (ps : List (TimeOfDay × TimeOfDay)) :
    ∀ s ∈ buildSlots iid base d ps, base ≤ s.id := by
  induction ps generalizing base with
  | nil => intro s hs; cases hs
  | cons p rest ih =>
    intro s hs
    rcases List.mem_cons.mp hs with hs | hs
    · subst hs; exact Nat.le_refl _
    · exact Nat.le_of_succ_le (ih (base + 1) s hs)

theorem buildSlots_ids (iid base : Nat) (d : DateOnly)
    (ps : List (TimeOfDay × TimeOfDay)) :
    (buildSlots iid base d ps).map (fun s => s.id) =
      List.range' base ps.length := by
  induction ps generalizing base with
  | nil => rfl
  | cons p rest ih => simp [buildSlots, List.range', ih]

/-- C5: `add_interview_slots` by a recruiter on an existing interview with
a date and a list of wall-clock pairs: all previously stored slots of that
interview are removed, exactly one new row is inserted per input pair
(start/end formed by combining the date with the pair's local times, none
selected), the interview rows — hence `scheduled_at` — are unchanged, and
the call succeeds for every pair list (no overlap or ordering
validation). -/
theorem claim_C5_offer_slots (db : AppDB) (email_ok : Bool) (caller : User)
    (interview_id : Nat) (d : DateOnly) (pairs : List (TimeOfDay × TimeOfDay))
    (itv : Interview) (app : Application)
    (hrole : caller.role = UserRole.recruiter)
    (hi : findInterview db interview_id = some itv)
    (ha : findApplication db itv.application_id = some app) :
    (add_interview_slots db email_ok caller interview_id d pairs).db.slots =
      db.slots.filter (fun s => s.interview_id != itv.id) ++
        buildSlots itv.id (freshSlotId db) d pairs ∧
    (buildSlots itv.id (freshSlotId db) d pairs).map slotData =
      pairs.map (fun p => (itv.id, combine d p.1, combine d p.2, false)) ∧
    (buildSlots itv.id (freshSlotId db) d pairs).length = pairs.length ∧
    (add_interview_slots db email_ok caller interview_id d pairs).db.interviews =
      db.interviews ∧
    (add_interview_slots db email_ok caller interview_id d pairs).db.applications =
      db.applications ∧
    (email_ok = true →
      (add_interview_slots db email_ok caller interview_id d pairs).result =
        Except.ok [("message", "Interview slots sent to candidate")]) := by
  refine ⟨?_, buildSlots_data _ _ _ _, buildSlots_length _ _ _ _, ?_, ?_, ?_⟩ <;>
    unfold add_interview_slots <;>
    simp only [hrole, hi] <;>
    [skip; skip; skip; intro he] <;>
    simp_all [findApplication] <;>
    cases email_ok <;> simp_all

/-- The offer date of the scenario slot batch. -/
def dW : DateOnly := ⟨2025, 3, 12⟩

/-- Witness for C5: the recruiter offers the three scenario slots on
2025-03-12 to the freshly scheduled (slot-offer mode) interview. -/
theorem claim_C5_offer_slots_witness :
    (add_interview_slots dbScheduled true recruiterU 1 dW slotBatch).db.slots =
      dbScheduled.slots.filter (fun s => s.interview_id != itvW.id) ++
        buildSlots itvW.id (freshSlotId dbScheduled) dW slotBatch ∧
    (buildSlots itvW.id (freshSlotId dbScheduled) dW slotBatch).map slotData =
      slotBatch.map (fun p => (itvW.id, combine dW p.1, combine dW p.2, false)) ∧
    (buildSlots itvW.id (freshSlotId dbScheduled) dW slotBatch).length =
      slotBatch.length ∧
    (add_interview_slots dbScheduled true recruiterU 1 dW slotBatch).db.interviews =
      dbScheduled.interviews ∧
    (add_interview_slots dbScheduled true recruiterU 1 dW slotBatch).db.applications =
      dbScheduled.applications ∧
    (true = true →
      (add_interview_slots dbScheduled true recruiterU 1 dW slotBatch).result =
        Except.ok [("message", "Interview slots sent to candidate")]) :=
  claim_C5_offer_slots dbScheduled true recruiterU 1 dW slotBatch itvW appW rfl
    (by decide) (by decide)

/-- C6: offering the same slot batch (same date, same pair list) twice in
succession yields the same final slots as offering it once, up to the
storage-assigned primary keys: the same number of rows with the same
observable content, and nothing else changes between the two states. -/
theorem claim_C6_offer_idempotent (db : AppDB) (e1 e2 : Bool) (c1 c2 : User)
    (interview_id : Nat) (d : DateOnly) (pairs : List (TimeOfDay × TimeOfDay))
    (itv : Interview)
    (hrole1 : c1.role = UserRole.recruiter)
    (hrole2 : c2.role = UserRole.recruiter)
    (hi : findInterview db interview_id = some itv) :
    (add_interview_slots
        (add_interview_slots db e1 c1 interview_id d pairs).db
        e2 c2 interview_id d pairs).db.slots.map slotData =
      (add_interview_slots db e1 c1 interview_id d pairs).db.slots.map slotData ∧
    (add_interview_slots
        (add_interview_slots db e1 c1 interview_id d pairs).db
        e2 c2 interview_id d pairs).db.slots.length =
      (add_interview_slots db e1 c1 interview_id d pairs).db.slots.length ∧
    (add_interview_slots
        (add_interview_slots db e1 c1 interview_id d pairs).db
        e2 c2 interview_id d pairs).db.interviews =
      (add_interview_slots db e1 c1 interview_id d pairs).db.interviews ∧
    (add_interview_slots
        (add_interview_slots db e1 c1 interview_id d pairs).db
        e2 c2 interview_id d pairs).db.applications =
      (add_interview_slots db e1 c1 interview_id d pairs).db.applications ∧
    (add_interview_slots
        (add_interview_slots db e1 c1 interview_id d pairs).db
        e2 c2 interview_id d pairs).db.notifications =
      (add_interview_slots db e1 c1 interview_id d pairs).db.notifications := by
  have honce_db : (add_interview_slots db e1 c1 interview_id d pairs).db =
      ⟨db.applications, db.interviews, db.interviewers, db.interview_interviewers,
        List.filter (fun s => s.interview_id != itv.id) db.slots ++
          buildSlots itv.id (freshSlotId db) d pairs,
        db.notifications⟩ := by
    unfold add_interview_slots
    rw [if_neg (fun h => h hrole1)]
    simp only [hi]
    split
    · rfl
    · split <;> rfl
  have hi2 : findInterview (add_interview_slots db e1 c1 interview_id d pairs).db
      interview_id = some itv := by
    rw [honce_db]
    exact hi
  have htwice_db : (add_interview_slots
      (add_interview_slots db e1 c1 interview_id d pairs).db
      e2 c2 interview_id d pairs).db =
      ⟨(add_interview_slots db e1 c1 interview_id d pairs).db.applications,
        (add_interview_slots db e1 c1 interview_id d pairs).db.interviews,
        (add_interview_slots db e1 c1 interview_id d pairs).db.interviewers,
        (add_interview_slots db e1 c1 interview_id d pairs).db.interview_interviewers,
        List.filter (fun s => s.interview_id != itv.id)
            (add_interview_slots db e1 c1 interview_id d pairs).db.slots ++
          buildSlots itv.id
            (freshSlotId (add_interview_slots db e1 c1 interview_id d pairs).db)
            d pairs,
        (add_interview_slots db e1 c1 interview_id d pairs).db.notifications⟩ := by
    generalize hO : (add_interview_slots db e1 c1 interview_id d pairs).db = post at hi2 ⊢
    unfold add_interview_slots
    rw [if_neg (fun h => h hrole2)]
    simp only [hi2]
    split
    · rfl
    · split <;> rfl
  have hfilter : List.filter (fun s => s.interview_id != itv.id)
      (add_interview_slots db e1 c1 interview_id d pairs).db.slots =
      db.slots.filter (fun s => s.interview_id != itv.id) := by
    rw [honce_db]
    simp only [List.filter_append]
    rw [List.filter_filter]
    have h1 : (db.slots.filter fun s =>
        (s.interview_id != itv.id) && (s.interview_id != itv.id)) =
        db.slots.filter fun s => s.interview_id != itv.id := by
      apply List.filter_congr
      intro a _
      cases h : a.interview_id != itv.id <;> simp [h]
    have h2 : ((buildSlots itv.id (freshSlotId db) d pairs).filter fun s =>
        s.interview_id != itv.id) = [] := by
      rw [List.filter_eq_nil_iff]
      intro a hm
      have := buildSlots_interview_id itv.id (freshSlotId db) d pairs a hm
      simp [this]
    rw [h1, h2, List.append_nil]
  rw [htwice_db, hfilter]
  refine ⟨?_, ?_, rfl, rfl, rfl⟩
  · rw [honce_db]
    simp only [List.map_append, buildSlots_data]
  · rw [honce_db]
    simp only [List.length_append, buildSlots_length]

/-- Witness for C6: offering the scenario batch a second time right after
`dbOffered` leaves the same three observable slots. -/
theorem claim_C6_offer_idempotent_witness :
    (add_interview_slots dbOffered true recruiterU 1 dW slotBatch).db.slots.map
        slotData =
      dbOffered.slots.map slotData ∧
    (add_interview_slots dbOffered true recruiterU 1 dW slotBatch).db.slots.length =
      dbOffered.slots.length ∧
    (add_interview_slots dbOffered true recruiterU 1 dW slotBatch).db.interviews =
      dbOffered.interviews ∧
    (add_interview_slots dbOffered true recruiterU 1 dW slotBatch).db.applications =
      dbOffered.applications ∧
    (add_interview_slots dbOffered true recruiterU 1 dW slotBatch).db.notifications =
      dbOffered.notifications :=
  claim_C6_offer_idempotent dbScheduled true true recruiterU recruiterU 1 dW
    slotBatch itvW rfl rfl (by decide)

/-- C9: authorization for the candidate operations is role-only.  Any two
callers whose resolved `User` row carries the candidate role get exactly
the same result and the same post-state from `select_interview_slot` on
any slot id and from `cancel_interview_by_candidate` on any application
id, whether or not either of them owns the application: no ownership check
is performed.  (Only the confirmation email's recipient depends on the
caller, since `select_interview_slot` mails the caller.) -/
theorem claim_C9_role_only_auth (db : AppDB) (email_ok : Bool) (u1 u2 : User)
    (slot_id application_id : Nat)
    (h1 : u1.role = UserRole.user) (h2 : u2.role = UserRole.user) :
    (select_interview_slot db email_ok u1 slot_id).result =
      (select_interview_slot db email_ok u2 slot_id).result ∧
    (select_interview_slot db email_ok u1 slot_id).db =
      (select_interview_slot db email_ok u2 slot_id).db ∧
    cancel_interview_by_candidate db u1 application_id =
      cancel_interview_by_candidate db u2 application_id := by
  refine ⟨?_, ?_, ?_⟩
  · unfold select_interview_slot
    rw [if_neg (fun h => h h1), if_neg (fun h => h h2)]
    split
    · rfl
    · split
      · rfl
      · split
        · rfl
        · split
          · rfl
          · split <;> rfl
  · unfold select_interview_slot
    rw [if_neg (fun h => h h1), if_neg (fun h => h h2)]
    split
    · rfl
    · split
      · rfl
      · split
        · rfl
        · split
          · rfl
          · split <;> rfl
  · unfold cancel_interview_by_candidate
    rw [if_neg (fun h => h h1), if_neg (fun h => h h2)]

/-- Witness for C9: the owning candidate and an unrelated candidate-role
user select slot 2 of the offered batch: same result, same post-state. -/
theorem claim_C9_role_only_auth_witness :
    (select_interview_slot dbOffered true candidateU 2).result =
      (select_interview_slot dbOffered true candidateU2 2).result ∧
    (select_interview_slot dbOffered true candidateU 2).db =
      (select_interview_slot dbOffered true candidateU2 2).db ∧
    cancel_interview_by_candidate dbOffered candidateU 1 =
      cancel_interview_by_candidate dbOffered candidateU2 1 :=
  claim_C9_role_only_auth dbOffered true candidateU candidateU2 2 1 rfl rfl

/-- C8 counterexample: the source does not guard the outbound email calls.
Offering the scenario slot batch while the SES collaborator fails commits
the new slot rows, yet the operation surfaces the collaborator's error to
the caller instead of the success result — contradicting the claim that
such failures are caught and never surfaced. -/
theorem claim_C8_counterexample :
    (add_interview_slots dbScheduled false recruiterU 1 dW slotBatch).result =
      Except.error OpErr.emailFailure ∧
    (add_interview_slots dbScheduled false recruiterU 1 dW slotBatch).db.slots.length = 3 ∧
    dbScheduled.slots = [] := by
  decide

/-- C8 amended: for every state-changing scheduling operation, the state
transition is durably committed before any notification or email
dispatch, and the committed state is identical whether or not the email
collaborator fails — the already-committed Interview/Application change
persists.  A failure of the collaborator is, however, not caught: it
propagates to the caller as an error in place of the success result. -/
theorem claim_C8_commit_before_dispatch (db : AppDB) (email_ok : Bool) (op : Op) :
    stepDb db email_ok op = stepDb db true op := by
  cases op with
  | schedule c p =>
    show (schedule_interview db email_ok c p).db = (schedule_interview db true c p).db
    unfold schedule_interview
    (repeat' split) <;> rfl
  | reschedule c a dt =>
    show (reschedule_interview db email_ok c a dt).db =
      (reschedule_interview db true c a dt).db
    unfold reschedule_interview
    (repeat' split) <;> rfl
  | cancelByRecruiter c a => rfl
  | cancelByCandidate c a => rfl
  | offerSlots c i d ps =>
    show (add_interview_slots db email_ok c i d ps).db =
      (add_interview_slots db true c i d ps).db
    unfold add_interview_slots
    dsimp only
    (repeat' split) <;> rfl
  | selectSlot c sid =>
    show (select_interview_slot db email_ok c sid).db =
      (select_interview_slot db true c sid).db
    unfold select_interview_slot
    (repeat' split) <;> rfl

/-! ### The slot-selection invariant (C2) -/

/-- Number of selected slots an interview id has in a slot table. -/
def selCount (l : List InterviewSlot) (iid : Nat) : Nat :=
  (l.filter fun s => s.is_selected && s.interview_id == iid).length

/-- Well-formedness of the slot table: primary keys are distinct and every
interview has at most one selected slot. -/
def SlotInv (l : List InterviewSlot) : Prop :=
  (l.map fun s => s.id).Nodup ∧ ∀ iid, selCount l iid ≤ 1

theorem mem_le_maxId (n : Nat) (l : List Nat) (h : n ∈ l) : n ≤ maxId l := by
  induction l with
  | nil => cases h
  | cons x xs ih =>
    rcases List.mem_cons.mp h with h | h
    · subst h; exact le_max_left _ _
    · exact le_trans (ih h) (le_max_right _ _)

theorem selCount_append (l1 l2 : List InterviewSlot) (iid : Nat) :
    selCount (l1 ++ l2) iid = selCount l1 iid + selCount l2 iid := by
  simp [selCount, List.filter_append]

theorem selCount_filter_le (l : List InterviewSlot) (q : InterviewSlot → Bool)
    (iid : Nat) : selCount (l.filter q) iid ≤ selCount l iid := by
  unfold selCount
  rw [List.filter_filter, ← List.countP_eq_length_filter,
    ← List.countP_eq_length_filter]
  exact List.countP_mono_left fun a _ h =>
    ((Bool.and_eq_true _ _).mp h).1

theorem selCount_buildSlots (iid base : Nat) (d : DateOnly)
    (ps : List (TimeOfDay × TimeOfDay)) (j : Nat) :
    selCount (buildSlots iid base d ps) j = 0 := by
  unfold selCount
  rw [List.filter_eq_nil_iff.mpr]
  · rfl
  · intro a ha
    have := buildSlots_not_selected iid base d ps a ha
    simp [this]

/-- Replacing an interview's batch preserves the invariant, provided the
new ids start above every existing id. -/
theorem slotInv_filter_append (l : List InterviewSlot) (iid base : Nat)
    (d : DateOnly) (ps : List (TimeOfDay × TimeOfDay))
    (hbase : ∀ s ∈ l, s.id < base) (h : SlotInv l) :
    SlotInv (l.filter (fun s => s.interview_id != iid) ++
      buildSlots iid base d ps) := by
  constructor
  · rw [List.map_append, buildSlots_ids]
    refine List.Nodup.append ?_ (List.nodup_range' _ _) ?_
    · exact ((List.filter_sublist l).map _).nodup h.1
    · intro a ha hb
      rcases List.mem_map.mp ha with ⟨s, hs, rfl⟩
      have h1 : s.id < base := hbase s (List.mem_of_mem_filter hs)
      have h2 : base ≤ s.id := by
        rcases List.mem_range'.mp hb with ⟨k, _, hk⟩
        omega
      omega
  · intro j
    rw [selCount_append, selCount_buildSlots]
    have := selCount_filter_le l (fun s => s.interview_id != iid) j
    have := h.2 j
    omega

theorem setSelected_ids (l : List InterviewSlot) (iid sid : Nat) :
    (setSelected l iid sid).map (fun s => s.id) = l.map fun s => s.id := by
  rw [setSelected_eq_map, List.map_map]
  refine List.map_congr_left fun t _ => ?_
  by_cases h1 : t.id = sid <;> by_cases h2 : t.interview_id = iid <;>
    simp [Function.comp, h1, h2]

/-- Selecting a slot that is present in the table preserves the
invariant. -/
theorem slotInv_setSelected (l : List InterviewSlot) (slot : InterviewSlot)
    (hmem : slot ∈ l) (h : SlotInv l) :
    SlotInv (setSelected l slot.interview_id slot.id) := by
  have hinj : ∀ x ∈ l, ∀ y ∈ l, x.id = y.id → x = y := fun x hx y hy hxy =>
    List.inj_on_of_nodup_map h.1 hx hy hxy
  constructor
  · rw [setSelected_ids]; exact h.1
  · intro j
    rw [setSelected_eq_map]
    unfold selCount
    rw [← List.countP_eq_length_filter, List.countP_map]
    by_cases hj : j = slot.interview_id
    · subst hj
      have hle : List.countP
          ((fun s => s.is_selected && s.interview_id == slot.interview_id) ∘ fun t =>
            if t.id = slot.id then { t with is_selected := true }
            else if t.interview_id = slot.interview_id then
              { t with is_selected := false }
            else t) l ≤
          List.countP (fun t => t.id == slot.id) l := by
        refine List.countP_mono_left fun t _ ht => ?_
        by_cases h1 : t.id = slot.id
        · simp [h1]
        · exfalso
          by_cases h2 : t.interview_id = slot.interview_id
          · simp [Function.comp, h1, h2] at ht
          · simp [Function.comp, h1, h2] at ht
      have hcount : List.countP (fun t => t.id == slot.id) l ≤ 1 := by
        have hnd := h.1
        rw [List.nodup_iff_count_le_one] at hnd
        have := hnd slot.id
        rw [List.count_eq_countP, List.countP_map] at this
        simpa [Function.comp] using this
      omega
    · have hle : List.countP
          ((fun s => s.is_selected && s.interview_id == j) ∘ fun t =>
            if t.id = slot.id then { t with is_selected := true }
            else if t.interview_id = slot.interview_id then
              { t with is_selected := false }
            else t) l ≤
          List.countP (fun s => s.is_selected && s.interview_id == j) l := by
        refine List.countP_mono_left fun t htm ht => ?_
        by_cases h1 : t.id = slot.id
        · exfalso
          have hts : t = slot := hinj t htm slot hmem h1
          subst hts
          simp [Function.comp] at ht
          exact hj ht.symm
        · by_cases h2 : t.interview_id = slot.interview_id
          · exfalso
            simp [Function.comp, h1, h2] at ht
          · simpa [Function.comp, h1, h2] using ht
      have := h.2 j
      unfold selCount at this
      rw [← List.countP_eq_length_filter] at this
      omega

theorem schedule_slots_eq (db : AppDB) (e : Bool) (c : User)
    (p : ScheduleInterviewRequest) :
    (schedule_interview db e c p).db.slots = db.slots := by
  unfold schedule_interview
  (repeat' split) <;> rfl

theorem reschedule_slots_eq (db : AppDB) (e : Bool) (c : User) (a : Nat)
    (dt : Option DateTime) :
    (reschedule_interview db e c a dt).db.slots = db.slots := by
  unfold reschedule_interview
  (repeat' split) <;> rfl

theorem cancel_recruiter_slots_eq (db : AppDB) (c : User) (a : Nat) :
    (cancel_interview_by_recruiter db c a).db.slots = db.slots := by
  unfold cancel_interview_by_recruiter cancelInterviewCore
  (repeat' split) <;> rfl

theorem cancel_candidate_slots_eq (db : AppDB) (c : User) (a : Nat) :
    (cancel_interview_by_candidate db c a).db.slots = db.slots := by
  unfold cancel_interview_by_candidate cancelInterviewCore
  (repeat' split) <;> rfl

theorem offer_slots_shape (db : AppDB) (e : Bool) (c : User) (i : Nat)
    (d : DateOnly) (ps : List (TimeOfDay × TimeOfDay)) :
    (add_interview_slots db e c i d ps).db.slots = db.slots ∨
    ∃ itv, findInterview db i = some itv ∧
      (add_interview_slots db e c i d ps).db.slots =
        db.slots.filter (fun s => s.interview_id != itv.id) ++
          buildSlots itv.id (freshSlotId db) d ps := by
  unfold add_interview_slots
  by_cases hr : c.role ≠ UserRole.recruiter
  · rw [if_pos hr]; left; rfl
  · rw [if_neg hr]
    cases hx : findInterview db i with
    | none => left; rfl
    | some itv =>
      right
      refine ⟨itv, rfl, ?_⟩
      dsimp only
      split
      · rfl
      · split <;> rfl

theorem select_slots_shape (db : AppDB) (e : Bool) (c : User) (sid : Nat) :
    (select_interview_slot db e c sid).db.slots = db.slots ∨
    ∃ slot, findSlot db sid = some slot ∧
      (select_interview_slot db e c sid).db.slots =
        setSelected db.slots slot.interview_id slot.id := by
  unfold select_interview_slot
  by_cases hr : c.role ≠ UserRole.user
  · rw [if_pos hr]; left; rfl
  · rw [if_neg hr]
    cases hs : findSlot db sid with
    | none => left; rfl
    | some slot =>
      dsimp only
      cases hx : findInterview db slot.interview_id with
      | none => left; rfl
      | some itv =>
        dsimp only
        have hid : itv.id = slot.interview_id := by
          have := List.find?_some hx
          simpa using this
        cases ha : findApplication db itv.application_id with
        | none => left; rfl
        | some app =>
          dsimp only
          by_cases hsch : itv.scheduled_at.isSome = true
          · rw [if_pos hsch]; left; rfl
          · rw [if_neg hsch]
            right
            refine ⟨slot, rfl, ?_⟩
            dsimp only
            rw [hid]
            split <;> rfl

/-- Every exposed operation preserves the slot invariant. -/
theorem stepDb_slotInv (db : AppDB) (e : Bool) (op : Op)
    (h : SlotInv db.slots) : SlotInv (stepDb db e op).slots := by
  cases op with
  | schedule c p =>
    show SlotInv (schedule_interview db e c p).db.slots
    rw [schedule_slots_eq]; exact h
  | reschedule c a dt =>
    show SlotInv (reschedule_interview db e c a dt).db.slots
    rw [reschedule_slots_eq]; exact h
  | cancelByRecruiter c a =>
    show SlotInv (cancel_interview_by_recruiter db c a).db.slots
    rw [cancel_recruiter_slots_eq]; exact h
  | cancelByCandidate c a =>
    show SlotInv (cancel_interview_by_candidate db c a).db.slots
    rw [cancel_candidate_slots_eq]; exact h
  | offerSlots c i d ps =>
    show SlotInv (add_interview_slots db e c i d ps).db.slots
    rcases offer_slots_shape db e c i d ps with hs | ⟨itv, _, hs⟩
    · rw [hs]; exact h
    · rw [hs]
      refine slotInv_filter_append _ _ _ _ _ ?_ h
      intro t ht
      have := mem_le_maxId t.id (db.slots.map fun s => s.id)
        (List.mem_map_of_mem _ ht)
      unfold freshSlotId at *
      omega
  | selectSlot c sid =>
    show SlotInv (select_interview_slot db e c sid).db.slots
    rcases select_slots_shape db e c sid with hs | ⟨slot, hfind, hs⟩
    · rw [hs]; exact h
    · rw [hs]
      exact slotInv_setSelected _ _ (List.mem_of_find?_eq_some hfind) h

theorem reachable_slotInv (db : AppDB) (h : Reachable db) : SlotInv db.slots := by
  induction h with
  | init apps ivs =>
    exact ⟨List.nodup_nil, fun iid => by simp [selCount]⟩
  | step db e op hr ih => exact stepDb_slotInv db e op ih

/-- C2 counterexample: the state reached by schedule (slot-offer mode) →
offer batch → select slot → cancel-by-candidate is reachable through the
exposed operations, still holds a slot with `is_selected = true`, yet its
interview's `scheduled_at` is null — refuting the claimed equivalence
between a selected slot existing and `scheduled_at` being non-null from
slot confirmation (`_cancel_interview` nulls `scheduled_at` without
clearing the selection flag). -/
theorem claim_C2_counterexample :
    Reachable dbCancelled ∧
    (∃ s ∈ dbCancelled.slots, s.is_selected = true) ∧
    (∀ i ∈ dbCancelled.interviews, i.scheduled_at = none) := by
  refine ⟨?_, by decide, by decide⟩
  exact Reachable.step _ true (Op.cancelByCandidate candidateU 1)
    (Reachable.step _ true (Op.selectSlot candidateU 1)
      (Reachable.step _ true (Op.offerSlots recruiterU 1 dW slotBatch)
        (Reachable.step _ true (Op.schedule recruiterU payloadSlots)
          (Reachable.init [app1] []))))

/-- C2 amended: in every state reachable through the exposed operations,
each interview has at most one slot with `is_selected = true`.  (The
claim's further "if and only if `scheduled_at` is non-null from slot
confirmation" fails: cancellation nulls `scheduled_at` but leaves the
selection flag, and offering a fresh batch clears the flag but leaves the
confirmed `scheduled_at` — see the counterexample.) -/
theorem claim_C2_at_most_one_selected (db : AppDB) (h : Reachable db)
    (iid : Nat) : selCount db.slots iid ≤ 1 :=
  (reachable_slotInv db h).2 iid

/-- Witness for C2 (amended) at the reachable post-selection state. -/
theorem claim_C2_at_most_one_selected_witness :
    selCount dbSelected.slots 1 ≤ 1 :=
  claim_C2_at_most_one_selected dbSelected
    (Reachable.step _ true (Op.selectSlot candidateU 1)
      (Reachable.step _ true (Op.offerSlots recruiterU 1 dW slotBatch)
        (Reachable.step _ true (Op.schedule recruiterU payloadSlots)
          (Reachable.init [app1] [])))) 1

end Recruit

